import Mathlib

/-!
Verification of the chess move-legality engine (TLouison/chess-rust).

Shallow embedding of the data model and operations of
src/game/piece.rs, src/game/moves.rs, src/game/moves/move_checker.rs and
src/game/board.rs.  Machine integers (u8) are modelled as Nat; arithmetic
that can wrap in the source is written with an explicit mod 256, and the
single place where the source reinterprets a u8 as an i8 is modelled by
u8ToI8.  Code that can panic (direct Vec indexing, expect, the explicit
panic in handle_move_piece_to_graveyard) is modelled with Option, where
none stands for the panic.
-/

/-- PieceType from piece.rs (piece_info). -/
inductive PieceType where
  | Pawn
  | Knight
  | Bishop
  | Rook
  | Queen
  | King
deriving DecidableEq, Repr

/-- PieceColor from piece.rs (piece_info). -/
inductive PieceColor where
  | Black
  | White
deriving DecidableEq, Repr

/-- PieceColor::flip from piece.rs. -/
def PieceColor.flip : PieceColor → PieceColor
  | .Black => .White
  | .White => .Black

/-- PieceLoc from piece.rs: a (rank, file) pair of u8 values, modelled as Nat. -/
structure PieceLoc where
  rank : Nat
  file : Nat
deriving DecidableEq, Repr

/-- PieceLoc::is_valid from piece.rs. -/
def PieceLoc.is_valid (rank file : Nat) : Bool :=
  rank ≤ 7 && file ≤ 7

/-- Piece as used by board.rs and move_checker.rs: kind, color and the
has_moved flag that both files read and write.  (The piece.rs copy in this
snapshot omits the field; its presence and initial value are forced by the
uses in board.rs and move_checker.rs.)  Modelled from the spec:
has_moved starts false and is set by the Move Applier. -/
structure Piece where
  piece_type : PieceType
  color : PieceColor
  has_moved : Bool
deriving DecidableEq, Repr

/-- Piece::new from piece.rs, with has_moved initialised to false (spec 3). -/
def Piece.new (p_type : PieceType) (color : PieceColor) : Piece :=
  { piece_type := p_type, color := color, has_moved := false }

/-- MoveType from move_checker.rs. -/
inductive MoveType where
  | Normal
  | EnPassant
  | Castling
deriving DecidableEq, Repr

/-- MoveResult from move_checker.rs. -/
structure MoveResult where
  move_type : MoveType
  capturing : Bool
deriving DecidableEq, Repr

/-- MoveError from move_checker.rs (all seventeen variants). -/
inductive MoveError where
  | WrongColorPiece
  | RankDifferenceGreater
  | FileDifferenceGreater
  | MoveOutOfBounds
  | MoveNotStraightLine
  | NoPositionChange
  | OccupiedBySameColor
  | PawnMustMoveForward
  | PawnMustCaptureDiagonal
  | PawnEnPassantNotValid
  | KnightInvalidMove
  | RookMustMoveCardinal
  | BishopMustMoveDiagonal
  | NoRookToCastleWith
  | CannotCastleWithMovedRook
  | CannotCastleWithMovedKing
  | CannotCastleThroughPiece
deriving DecidableEq, Repr

/-- Move from moves.rs: the committed-move record stored in the move list. -/
structure Move where
  piece : Piece
  start_pos : PieceLoc
  end_pos : PieceLoc
  move_type : MoveType
  capturing : Bool
deriving DecidableEq, Repr

/-- The per-color graveyard: an association list modelling
HashMap PieceType u8 (order of entries is unobservable in the core). -/
def PieceGrave := List (PieceType × Nat)
deriving DecidableEq

/-- The graveyard: an association list modelling
HashMap PieceColor (HashMap PieceType u8). -/
def Graveyard := List (PieceColor × PieceGrave)
deriving DecidableEq

/-- HashMap::get on an association list. -/
def assocGet {α β : Type} [DecidableEq α] : List (α × β) → α → Option β
  | [], _ => none
  | (k, v) :: rest, key => if k = key then some v else assocGet rest key

/-- HashMap insert-or-replace on an association list (replaces the first
binding of the key, else appends). -/
def assocSet {α β : Type} [DecidableEq α] : List (α × β) → α → β → List (α × β)
  | [], key, val => [(key, val)]
  | (k, v) :: rest, key, val =>
    if k = key then (k, val) :: rest else (k, v) :: assocSet rest key val

/-- Board from board.rs. -/
structure Board where
  ranks : Nat
  files : Nat
  current_turn : PieceColor
  move_list : List Move
  board : List (Option Piece)
  graveyard : Graveyard
deriving DecidableEq

/-- Board::generate_default_board from board.rs: the standard 32-piece
starting layout, built exactly as the source does (a 64-slot vector of
None, then the back ranks and the two pawn loops). -/
def generate_default_board (ranks files : Nat) : List (Option Piece) :=
  let b0 : List (Option Piece) := List.replicate (ranks * files) none
  let b1 := ((((((((b0.set 0 (some (Piece.new .Rook .White))).set 1
      (some (Piece.new .Knight .White))).set 2
      (some (Piece.new .Bishop .White))).set 3
      (some (Piece.new .Queen .White))).set 4
      (some (Piece.new .King .White))).set 5
      (some (Piece.new .Bishop .White))).set 6
      (some (Piece.new .Knight .White))).set 7
      (some (Piece.new .Rook .White)))
  let b2 := (List.range 8).foldl
      (fun bd file => bd.set (8 + file) (some (Piece.new .Pawn .White))) b1
  let b3 := (List.range 8).foldl
      (fun bd file => bd.set (48 + file) (some (Piece.new .Pawn .Black))) b2
  ((((((((b3.set 56 (some (Piece.new .Rook .Black))).set 57
      (some (Piece.new .Knight .Black))).set 58
      (some (Piece.new .Bishop .Black))).set 59
      (some (Piece.new .Queen .Black))).set 60
      (some (Piece.new .King .Black))).set 61
      (some (Piece.new .Bishop .Black))).set 62
      (some (Piece.new .Knight .Black))).set 63
      (some (Piece.new .Rook .Black)))

/-- Board::generate_empty_graveyard from board.rs.  Note that the King kind
is deliberately absent from both inner maps. -/
def generate_empty_graveyard : Graveyard :=
  [ (.White, [(.Pawn, 0), (.Knight, 0), (.Bishop, 0), (.Rook, 0), (.Queen, 0)]),
    (.Black, [(.Pawn, 0), (.Knight, 0), (.Bishop, 0), (.Rook, 0), (.Queen, 0)]) ]

/-- Board::new from board.rs. -/
def Board.new : Board :=
  { ranks := 8
    files := 8
    current_turn := .White
    move_list := []
    board := generate_default_board 8 8
    graveyard := generate_empty_graveyard }

/-- Board::get_board_index_from_loc from board.rs:
(loc.rank * self.ranks) + loc.file computed in u8 arithmetic, hence the
mod 256 (release-mode wrapping semantics). -/
def get_board_index_from_loc (b : Board) (loc : PieceLoc) : Nat :=
  (loc.rank * b.ranks + loc.file) % 256

/-- Board::get_piece_at_location from board.rs:
self.board.get(index).copied().unwrap_or_else(|| None). -/
def get_piece_at_location (b : Board) (loc : PieceLoc) : Option Piece :=
  (b.board.get? (get_board_index_from_loc b loc)).getD none

/-- Board::get_previous_move from board.rs: self.move_list.last(). -/
def get_previous_move (b : Board) : Option Move :=
  b.move_list.getLast?

/-- is_diagonal_move from move_checker.rs. -/
def is_diagonal_move (start dest : PieceLoc) : Bool :=
  dest.file.dist start.file == dest.rank.dist start.rank

/-- is_cardinal_move from move_checker.rs. -/
def is_cardinal_move (start dest : PieceLoc) : Bool :=
  dest.file == start.file || dest.rank == start.rank

/-- is_knight_move from move_checker.rs. -/
def is_knight_move (start dest : PieceLoc) : Bool :=
  (dest.file.dist start.file == 2 && dest.rank.dist start.rank == 1) ||
  (dest.file.dist start.file == 1 && dest.rank.dist start.rank == 2)

/-- The u8-to-i8 cast used by the pawn forward-direction check
(dest.rank as i8): values below 128 are themselves, higher values wrap
to negatives. -/
def u8ToI8 (n : Nat) : Int :=
  if n % 256 < 128 then (n % 256 : Int) else (n % 256 : Int) - 256

/-- The pawn direction local of move_checker.rs: +1 for White, -1 for
Black along rank. -/
def pawn_direction (c : PieceColor) : Int :=
  match c with
  | .White => 1
  | .Black => -1

/-- The required_start_rank component of the tuple computed at the top of
can_en_passant: 4 for White, 2 for Black. -/
def ep_required_start_rank (c : PieceColor) : Nat :=
  match c with
  | .White => 4
  | .Black => 2

/-- The valid_destination_rank component of the tuple computed at the top
of can_en_passant: 5 for White, 1 for Black. -/
def ep_valid_destination_rank (c : PieceColor) : Nat :=
  match c with
  | .White => 5
  | .Black => 1

/-- can_en_passant from move_checker.rs.  (The println calls of the source
are I/O-free here.) -/
def can_en_passant (board : Board) (piece : Piece) (start dest : PieceLoc) :
    Except MoveError MoveResult :=
  let required_start_rank : Nat := ep_required_start_rank piece.color
  let valid_destination_rank : Nat := ep_valid_destination_rank piece.color
  if start.rank = required_start_rank then
    match get_previous_move board with
    | some last_move =>
      if last_move.piece.piece_type = PieceType.Pawn then
        if last_move.start_pos.rank.dist last_move.end_pos.rank = 2 then
          if dest.rank = valid_destination_rank ∧ dest.file = last_move.end_pos.file then
            .ok { move_type := .EnPassant, capturing := true }
          else .error .PawnEnPassantNotValid
        else .error .PawnEnPassantNotValid
      else .error .PawnEnPassantNotValid
    | none => .error .PawnEnPassantNotValid
  else .error .PawnEnPassantNotValid

/-- The rook square probed by the castling branch of is_valid_move: on the
destination rank, file 0 when the king shifts toward lower files
(queenside) and file 7 when it shifts toward higher files (kingside). -/
def castling_rook_loc (start dest : PieceLoc) : PieceLoc :=
  if dest.file < start.file then { rank := dest.rank, file := 0 }
  else { rank := dest.rank, file := 7 }

/-- The per-kind arm of is_valid_move from move_checker.rs, with the
capturing flag computed by the universal occupancy check passed in.  The
two mutable locals of the source (capturing, move_type) are resolved by
the case split on en passant success in the Pawn arm: when can_en_passant
succeeds the source has set capturing to true and move_type to EnPassant
before the shared diagonal check; otherwise both keep their prior values. -/
def is_valid_move_kind (board : Board) (piece : Piece) (start dest : PieceLoc)
    (capturing : Bool) : Except MoveError MoveResult :=
  match piece.piece_type with
  | .Pawn =>
    let max_diff : Nat := if piece.has_moved then 1 else 2
    if dest.rank.dist start.rank > max_diff then
      .error .RankDifferenceGreater
    else if u8ToI8 dest.rank * pawn_direction piece.color ≤
        u8ToI8 start.rank * pawn_direction piece.color then
      .error .PawnMustMoveForward
    else if (can_en_passant board piece start dest).isOk then
      if dest.file.dist start.file ≠ 1 ∨ dest.rank.dist start.rank ≠ 1 then
        .error .PawnMustCaptureDiagonal
      else .ok { move_type := .EnPassant, capturing := true }
    else if capturing then
      if dest.file.dist start.file ≠ 1 ∨ dest.rank.dist start.rank ≠ 1 then
        .error .PawnMustCaptureDiagonal
      else .ok { move_type := .Normal, capturing := capturing }
    else
      if start.file ≠ dest.file then .error .PawnMustMoveForward
      else .ok { move_type := .Normal, capturing := capturing }
  | .King =>
    if dest.rank = start.rank ∧ dest.file.dist start.file = 2 then
      if piece.has_moved then .error .CannotCastleWithMovedKing
      else
        match get_piece_at_location board (castling_rook_loc start dest) with
        | some rook =>
          if ¬rook.has_moved then
            .ok { move_type := .Castling, capturing := capturing }
          else .error .CannotCastleWithMovedRook
        | none => .error .NoRookToCastleWith
    else if dest.file.dist start.file > 1 then .error .FileDifferenceGreater
    else if dest.rank.dist start.rank > 1 then .error .RankDifferenceGreater
    else .ok { move_type := .Normal, capturing := capturing }
  | .Rook =>
    if is_cardinal_move start dest then
      .ok { move_type := .Normal, capturing := capturing }
    else .error .RookMustMoveCardinal
  | .Bishop =>
    if is_diagonal_move start dest then
      .ok { move_type := .Normal, capturing := capturing }
    else .error .BishopMustMoveDiagonal
  | .Queen =>
    if is_diagonal_move start dest || is_cardinal_move start dest then
      .ok { move_type := .Normal, capturing := capturing }
    else .error .MoveNotStraightLine
  | .Knight =>
    if is_knight_move start dest then
      .ok { move_type := .Normal, capturing := capturing }
    else .error .KnightInvalidMove

/-- is_valid_move from move_checker.rs: the universal checks (turn, bounds,
no-op move, destination occupancy) followed by the per-kind rules. -/
def is_valid_move (board : Board) (piece : Piece) (start dest : PieceLoc) :
    Except MoveError MoveResult :=
  if board.current_turn ≠ piece.color then .error .WrongColorPiece
  else if dest.file ≥ board.files ∨ dest.rank ≥ board.ranks then
    .error .MoveOutOfBounds
  else if dest.rank = start.rank ∧ dest.file = start.file then
    .error .NoPositionChange
  else
    match get_piece_at_location board dest with
    | some existing_piece =>
      if existing_piece.color = piece.color then .error .OccupiedBySameColor
      else is_valid_move_kind board piece start dest true
    | none => is_valid_move_kind board piece start dest false

/-- CaptureResult, the classification consumed by the Move Applier.
Modelled from the spec: the type is imported by board.rs
(use super::moves::CaptureResult) but absent from the moves.rs in this
snapshot; spec section 4.2 step 1 fixes its three cases (normal capture,
en passant capture, no capture). -/
inductive CaptureResult where
  | Normal
  | EnPassant
  | None
deriving DecidableEq, Repr

/-- Conversion of the checker result into the capture classification.
Modelled from the spec: the glue between MoveResult and CaptureResult is
missing from src; spec section 4.2 step 1 says the captured-piece square
exists for Normal capturing moves and for EnPassant moves, and that
non-capturing moves have none. -/
def toCaptureResult (r : MoveResult) : CaptureResult :=
  match r.move_type, r.capturing with
  | .Normal, true => .Normal
  | .EnPassant, _ => .EnPassant
  | _, _ => .None

/-- List write with the panic behaviour of Vec index assignment: none when
the index is out of bounds. -/
def setPanic {α : Type} (l : List α) (i : Nat) (a : α) : Option (List α) :=
  if i < l.length then some (l.set i a) else none

/-- Board::record_move from board.rs: clone the move list and push a copy
of the new move.  (The source names only the piece, start_pos and end_pos
fields; the remaining fields of Move are copied unchanged.) -/
def record_move (b : Board) (new_move : Move) : List Move :=
  b.move_list ++ [{ piece := new_move.piece
                    start_pos := new_move.start_pos
                    end_pos := new_move.end_pos
                    move_type := new_move.move_type
                    capturing := new_move.capturing }]

/-- Board::get_captured_piece_idx from board.rs.  For the EnPassant case
the source computes end_pos.rank - 1 (White) or + 1 (Black) in u8; the
subtraction can only be reached with end_pos.rank = 5 in the applier flow,
so Nat subtraction is exact there. -/
def get_captured_piece_idx (b : Board) (result : CaptureResult) (m : Move) :
    Option Nat :=
  match result with
  | .Normal => some (get_board_index_from_loc b m.end_pos)
  | .EnPassant =>
    match m.piece.color with
    | .White => some (get_board_index_from_loc b
        { rank := m.end_pos.rank - 1, file := m.end_pos.file })
    | .Black => some (get_board_index_from_loc b
        { rank := m.end_pos.rank + 1, file := m.end_pos.file })
  | .None => none

/-- The graveyard update of Board::handle_move_piece_to_graveyard: get_mut
on the color (its expect panic is the outer none), then
entry(piece_type).or_insert(1) followed by += 1. -/
def graveyardAddCapture (g : Graveyard) (captured_piece : Piece) :
    Option Graveyard :=
  match assocGet g captured_piece.color with
  | some color_grave =>
    let current : Nat :=
      match assocGet color_grave captured_piece.piece_type with
      | some n => n
      | none => 1
    some (assocSet g captured_piece.color
      (assocSet color_grave captured_piece.piece_type (current + 1)))
  | none => none

/-- Board::handle_move_piece_to_graveyard from board.rs.  The source
mutates self.board (clearing the captured square) in addition to returning
the new graveyard, so the model returns both; none models the two panics
(expect on the color lookup, and the explicit panic when the captured
square is empty) and the out-of-bounds direct index read. -/
def handle_move_piece_to_graveyard (b : Board) (capture_type : CaptureResult)
    (m : Move) : Option (Graveyard × List (Option Piece)) :=
  match capture_type with
  | .Normal | .EnPassant =>
    match get_captured_piece_idx b capture_type m with
    | some captured_piece_idx =>
      match b.board.get? captured_piece_idx with
      | some (some captured_piece) =>
        match graveyardAddCapture b.graveyard captured_piece with
        | some new_graveyard =>
          some (new_graveyard, b.board.set captured_piece_idx none)
        | none => none
      | some none => none
      | none => none
    | none => some (b.graveyard, b.board)
  | .None => some (b.graveyard, b.board)

/-- Board::handle_moving_piece from board.rs: set has_moved on a copy of
the moved piece, write it at the destination index and clear the start
index (both direct Vec writes, hence setPanic).  The final if-let of the
source mutates a temporary copy returned by unwrap and is a no-op. -/
def handle_moving_piece (b : Board) (m : Move) : Option (List (Option Piece)) :=
  let selected_piece := { m.piece with has_moved := true }
  let start_board_idx := get_board_index_from_loc b m.start_pos
  let end_board_idx := get_board_index_from_loc b m.end_pos
  match setPanic b.board end_board_idx (some selected_piece) with
  | some nb =>
    match setPanic nb start_board_idx none with
    | some nb2 => some nb2
    | none => none
  | none => none

/-- Board::update from board.rs: functional record update flipping the
turn. -/
def Board.update (b : Board) (board : List (Option Piece)) (move_list : List Move)
    (graveyard : Graveyard) : Board :=
  { b with
    board := board
    move_list := move_list
    graveyard := graveyard
    current_turn := b.current_turn.flip }

/-- Board::move_piece from board.rs.  On a rejected move the board is
returned unchanged.  On an accepted move the three pieces of new state are
computed from the original board; the self.board mutation performed inside
handle_move_piece_to_graveyard is bound and then discarded, exactly as the
source discards it by building the result from new_board. -/
def move_piece (b : Board) (new_move : Move) : Option Board :=
  match is_valid_move b new_move.piece new_move.start_pos new_move.end_pos with
  | .ok capturing_move =>
    let new_move_list := record_move b new_move
    match handle_moving_piece b new_move with
    | some new_board =>
      match handle_move_piece_to_graveyard b (toCaptureResult capturing_move)
          new_move with
      | some (new_graveyard, _mutated_self_board) =>
        some (Board.update b new_board new_move_list new_graveyard)
      | none => none
    | none => none
  | .error _ => some b

/-- Fold of move_piece over a list of proposed moves, propagating the
panic case. -/
def applyMoves (b : Board) : List Move → Option Board
  | [] => some b
  | m :: ms =>
    match move_piece b m with
    | some b2 => applyMoves b2 ms
    | none => none

/-- Number of successfully applied (checker-accepted) moves along a run of
applyMoves. -/
def successCount (b : Board) : List Move → Nat
  | [] => 0
  | m :: ms =>
    (if (is_valid_move b m.piece m.start_pos m.end_pos).isOk then 1 else 0) +
    (match move_piece b m with
     | some b2 => successCount b2 ms
     | none => 0)

/-- Lookup of one tally counter: graveyard color map then kind entry. -/
def graveyardCount (g : Graveyard) (c : PieceColor) (t : PieceType) : Option Nat :=
  match assocGet g c with
  | some color_grave => assocGet color_grave t
  | none => none

/-! ### Concrete positions used as counterexamples and witnesses -/

/-- A position ready for en passant: a white pawn on (4,4), the black pawn
it passes on (4,5), and the black two-step advance (6,5) to (4,5) as the
most recent history entry. -/
def epCaptureBoard : Board :=
  { ranks := 8
    files := 8
    current_turn := .White
    move_list := [{ piece := { piece_type := .Pawn, color := .Black, has_moved := false }
                    start_pos := { rank := 6, file := 5 }
                    end_pos := { rank := 4, file := 5 }
                    move_type := .Normal
                    capturing := false }]
    board := ((List.replicate 64 (none : Option Piece)).set 36
        (some { piece_type := .Pawn, color := .White, has_moved := true })).set 37
        (some { piece_type := .Pawn, color := .Black, has_moved := true })
    graveyard := generate_empty_graveyard }

/-- The en passant capture attempt on epCaptureBoard: white pawn
(4,4) to (5,5). -/
def epCaptureMove : Move :=
  { piece := { piece_type := .Pawn, color := .White, has_moved := true }
    start_pos := { rank := 4, file := 4 }
    end_pos := { rank := 5, file := 5 }
    move_type := .EnPassant
    capturing := true }

/-- A position in which White can capture the black king: white rook on
(0,0), black king on (0,5), White to move. -/
def kingCaptureBoard : Board :=
  { ranks := 8
    files := 8
    current_turn := .White
    move_list := []
    board := ((List.replicate 64 (none : Option Piece)).set 0
        (some { piece_type := .Rook, color := .White, has_moved := false })).set 5
        (some { piece_type := .King, color := .Black, has_moved := false })
    graveyard := generate_empty_graveyard }

/-- The king capture on kingCaptureBoard: rook (0,0) to (0,5). -/
def kingCaptureMove : Move :=
  { piece := { piece_type := .Rook, color := .White, has_moved := false }
    start_pos := { rank := 0, file := 0 }
    end_pos := { rank := 0, file := 5 }
    move_type := .Normal
    capturing := true }

/-- A position whose single history entry is a WHITE pawn two-step
(1,4) to (3,4), with White to move: the mover and the last-moved pawn have
the same color. -/
def epSameColorBoard : Board :=
  { ranks := 8
    files := 8
    current_turn := .White
    move_list := [{ piece := { piece_type := .Pawn, color := .White, has_moved := false }
                    start_pos := { rank := 1, file := 4 }
                    end_pos := { rank := 3, file := 4 }
                    move_type := .Normal
                    capturing := false }]
    board := List.replicate 64 (none : Option Piece)
    graveyard := generate_empty_graveyard }

/-- Kingside castling position with an enemy piece on the castling
destination: white king on (0,4), white rook on (0,7), black knight on
(0,6), White to move. -/
def castleCaptureBoard : Board :=
  { ranks := 8
    files := 8
    current_turn := .White
    move_list := []
    board := (((List.replicate 64 (none : Option Piece)).set 4
        (some { piece_type := .King, color := .White, has_moved := false })).set 7
        (some { piece_type := .Rook, color := .White, has_moved := false })).set 6
        (some { piece_type := .Knight, color := .Black, has_moved := false })
    graveyard := generate_empty_graveyard }

/-! ### Claim C1 -/

/-- Claim C1 (code bug, evaluated at the failing input): applying the en
passant capture on epCaptureBoard increments the black pawn tally counter
to 1, yet the captured black pawn is still on square (4,5) of the
resulting board, so no opposing piece was removed; and capturing the black
king on kingCaptureBoard sets the Black King tally entry, absent in the
input tally, to 2 rather than incrementing it by 1. -/
theorem C1_capture_bookkeeping_bug :
    (move_piece epCaptureBoard epCaptureMove).map
        (fun b => (get_piece_at_location b { rank := 4, file := 5 },
                   graveyardCount b.graveyard .Black .Pawn)) =
      some (some { piece_type := .Pawn, color := .Black, has_moved := true },
            some 1) ∧
    graveyardCount epCaptureBoard.graveyard .Black .Pawn = some 0 ∧
    (move_piece kingCaptureBoard kingCaptureMove).map
        (fun b => graveyardCount b.graveyard .Black .King) = some (some 2) ∧
    graveyardCount kingCaptureBoard.graveyard .Black .King = none :=
  ⟨rfl, rfl, rfl, rfl⟩

/-! ### Claim C2: counterexample -/

/-- Claim C2 counterexample: on epSameColorBoard the legality checker
classifies the white pawn move (4,5) to (5,4) as EnPassant capturing even
though the single history entry is a WHITE pawn (the same color as the
mover), which the claim says can never happen: can_en_passant checks only
that the last-moved piece is a pawn, not its color. -/
theorem C2_counterexample :
    is_valid_move epSameColorBoard
        { piece_type := .Pawn, color := .White, has_moved := true }
        { rank := 4, file := 5 } { rank := 5, file := 4 } =
      .ok { move_type := .EnPassant, capturing := true } ∧
    (get_previous_move epSameColorBoard).map (fun m => m.piece) =
      some { piece_type := .Pawn, color := .White, has_moved := false } :=
  ⟨rfl, rfl⟩

/-! ### Claim C3: counterexample -/

/-- Claim C3 counterexample: the coordinate (rank 6, file 8) is out of
range (file 8 is larger than 7), yet on the standard starting board the
occupant lookup returns the black rook stored at flattened index
6 * 8 + 8 = 56 instead of the None the claim requires. -/
theorem C3_counterexample :
    PieceLoc.is_valid 6 8 = false ∧
    get_piece_at_location Board.new { rank := 6, file := 8 } =
      some { piece_type := .Rook, color := .Black, has_moved := false } :=
  ⟨rfl, rfl⟩

/-- Claim C3, amended: the occupant lookup is total (never panics, with
wrapping u8 index arithmetic) and returns None whenever the wrapped
flattened index falls outside the board array; but any Some it returns is
exactly the contents of the in-bounds slot the coordinate flattens to, so
an out-of-range coordinate whose flattened index aliases into the array
returns that occupant instead of None. -/
theorem C3_amended_lookup_total (b : Board) (loc : PieceLoc) :
    (b.board.length ≤ get_board_index_from_loc b loc →
      get_piece_at_location b loc = none) ∧
    (∀ p, get_piece_at_location b loc = some p →
      ∃ h : get_board_index_from_loc b loc < b.board.length,
        b.board.get ⟨get_board_index_from_loc b loc, h⟩ = some p) := by
  constructor
  · intro hle
    unfold get_piece_at_location
    rw [List.get?_eq_none.mpr hle]
    rfl
  · intro p hp
    unfold get_piece_at_location at hp
    cases hg : b.board.get? (get_board_index_from_loc b loc) with
    | none => rw [hg] at hp; simp at hp
    | some o =>
      rw [hg] at hp
      simp only [Option.getD_some] at hp
      obtain ⟨hlt, hget⟩ := List.get?_eq_some.mp hg
      exact ⟨hlt, by rw [hget, hp]⟩

/-- Witness for the amended claim C3 at a concrete input: the out-of-range
coordinate (6,8) aliases to in-bounds index 56 of the standard board, and
the lookup returns the black rook stored there. -/
theorem C3_witness :
    ∃ h : get_board_index_from_loc Board.new { rank := 6, file := 8 } <
        Board.new.board.length,
      Board.new.board.get
          ⟨get_board_index_from_loc Board.new { rank := 6, file := 8 }, h⟩ =
        some { piece_type := .Rook, color := .Black, has_moved := false } :=
  (C3_amended_lookup_total Board.new { rank := 6, file := 8 }).2
    { piece_type := .Rook, color := .Black, has_moved := false } rfl

/-! ### Universal-check reduction shared by several claims -/

/-- When the universal checks pass (right turn, destination in bounds,
destination differs from start, destination not occupied by a same-color
piece), is_valid_move reduces to the per-kind rules with the capturing
flag equal to whether the destination is occupied. -/
lemma is_valid_move_universal (b : Board) (p : Piece) (start dest : PieceLoc)
    (hturn : b.current_turn = p.color)
    (hfile : dest.file < b.files) (hrank : dest.rank < b.ranks)
    (hne : ¬(dest.rank = start.rank ∧ dest.file = start.file))
    (hocc : (get_piece_at_location b dest).elim True
      (fun q => q.color ≠ p.color)) :
    is_valid_move b p start dest =
      is_valid_move_kind b p start dest (get_piece_at_location b dest).isSome := by
  unfold is_valid_move
  rw [if_neg (not_not_intro hturn)]
  rw [if_neg (by omega)]
  rw [if_neg hne]
  cases hq : get_piece_at_location b dest with
  | none => rfl
  | some q =>
    rw [hq] at hocc
    simp only [Option.elim] at hocc
    dsimp only
    rw [if_neg hocc]
    rfl

/-! ### Claim C8 -/

/-- Claim C8: under the universal checks, a rook move is accepted exactly
when start and dest share a rank or a file (else RookMustMoveCardinal), a
bishop move exactly when the rank and file distances agree (else
BishopMustMoveDiagonal), and a queen move exactly when either geometry
holds (else MoveNotStraightLine) — for every board, hence independent of
any pieces on the squares strictly between start and dest. -/
theorem C8_sliding_piece_geometry (b : Board) (p : Piece) (start dest : PieceLoc)
    (hturn : b.current_turn = p.color)
    (hfile : dest.file < b.files) (hrank : dest.rank < b.ranks)
    (hne : ¬(dest.rank = start.rank ∧ dest.file = start.file))
    (hocc : (get_piece_at_location b dest).elim True
      (fun q => q.color ≠ p.color)) :
    (p.piece_type = .Rook →
      is_valid_move b p start dest =
        (if is_cardinal_move start dest then
          .ok { move_type := .Normal,
                capturing := (get_piece_at_location b dest).isSome }
         else .error .RookMustMoveCardinal)) ∧
    (p.piece_type = .Bishop →
      is_valid_move b p start dest =
        (if is_diagonal_move start dest then
          .ok { move_type := .Normal,
                capturing := (get_piece_at_location b dest).isSome }
         else .error .BishopMustMoveDiagonal)) ∧
    (p.piece_type = .Queen →
      is_valid_move b p start dest =
        (if is_diagonal_move start dest || is_cardinal_move start dest then
          .ok { move_type := .Normal,
                capturing := (get_piece_at_location b dest).isSome }
         else .error .MoveNotStraightLine)) := by
  refine ⟨?_, ?_, ?_⟩ <;> intro hk <;>
    rw [is_valid_move_universal b p start dest hturn hfile hrank hne hocc] <;>
    unfold is_valid_move_kind <;> rw [hk]

/-- Witness for claim C8 at a concrete input: the white rook move (0,0) to
(3,0) from the standard start (a cardinal move to an empty square) is
accepted as a non-capturing Normal move. -/
theorem C8_witness :
    is_valid_move Board.new
        { piece_type := .Rook, color := .White, has_moved := false }
        { rank := 0, file := 0 } { rank := 3, file := 0 } =
      (if is_cardinal_move { rank := 0, file := 0 } { rank := 3, file := 0 } then
        .ok { move_type := .Normal,
              capturing := (get_piece_at_location Board.new
                { rank := 3, file := 0 }).isSome }
       else .error .RookMustMoveCardinal) :=
  (C8_sliding_piece_geometry Board.new
    { piece_type := .Rook, color := .White, has_moved := false }
    { rank := 0, file := 0 } { rank := 3, file := 0 }
    rfl (by decide) (by decide) (by decide) (by exact trivial)).1 rfl

/-- Characterisation of can_en_passant: it succeeds (with EnPassant,
capturing) exactly when the mover stands on its en passant start rank, the
most recent history entry exists and is a pawn move spanning two ranks,
and the destination is the fixed en passant destination rank at that
pawn's end file.  The color of the last-moved pawn is NOT constrained. -/
lemma can_en_passant_ok_iff (b : Board) (p : Piece) (start dest : PieceLoc) :
    (can_en_passant b p start dest).isOk = true ↔
      (start.rank = ep_required_start_rank p.color ∧
       ∃ lm, get_previous_move b = some lm ∧
         lm.piece.piece_type = .Pawn ∧
         lm.start_pos.rank.dist lm.end_pos.rank = 2 ∧
         dest.rank = ep_valid_destination_rank p.color ∧
         dest.file = lm.end_pos.file) := by
  unfold can_en_passant
  dsimp only
  by_cases hs : start.rank = ep_required_start_rank p.color
  · rw [if_pos hs]
    cases hlm : get_previous_move b with
    | none =>
      dsimp only
      constructor
      · intro hfalse; exact absurd hfalse (by decide)
      · rintro ⟨hs2, lm2, hlmeq, _⟩
        cases hlmeq
    | some lm =>
      dsimp only
      by_cases h1 : lm.piece.piece_type = PieceType.Pawn
      · rw [if_pos h1]
        by_cases h2 : lm.start_pos.rank.dist lm.end_pos.rank = 2
        · rw [if_pos h2]
          by_cases h3 : dest.rank = ep_valid_destination_rank p.color ∧
              dest.file = lm.end_pos.file
          · rw [if_pos h3]
            constructor
            · intro _
              exact ⟨hs, lm, rfl, h1, h2, h3.1, h3.2⟩
            · intro _
              rfl
          · rw [if_neg h3]
            constructor
            · intro hfalse; exact absurd hfalse (by decide)
            · rintro ⟨hs2, lm2, hlmeq, hp2, hdist2, hv2, hf2⟩
              cases hlmeq
              exact absurd ⟨hv2, hf2⟩ h3
        · rw [if_neg h2]
          constructor
          · intro hfalse; exact absurd hfalse (by decide)
          · rintro ⟨hs2, lm2, hlmeq, hp2, hdist2, hv2, hf2⟩
            cases hlmeq
            exact absurd hdist2 h2
      · rw [if_neg h1]
        constructor
        · intro hfalse; exact absurd hfalse (by decide)
        · rintro ⟨hs2, lm2, hlmeq, hp2, hdist2, hv2, hf2⟩
          cases hlmeq
          exact absurd hp2 h1
  · rw [if_neg hs]
    constructor
    · intro hfalse; exact absurd hfalse (by decide)
    · rintro ⟨hs2, _⟩
      exact absurd hs2 hs

/-- Claim C2, amended: for a pawn, a diagonal destination with no
occupant, under the universal checks, the checker returns EnPassant with
capturing = true if and only if the mover stands on its en passant start
rank (4 for White, 2 for Black), the destination is the fixed rank behind
a passed pawn (5 for White, 1 for Black) one file away, and the single
most recent history entry is a pawn — of EITHER color, the code does not
check it — whose recorded move spanned two ranks and whose end file equals
dest.file.  In particular the checker CAN classify EnPassant when the
last-moved pawn has the mover's own color. -/
theorem C2_amended_en_passant_iff (b : Board) (p : Piece) (start dest : PieceLoc)
    (hk : p.piece_type = .Pawn)
    (hturn : b.current_turn = p.color)
    (hfile : dest.file < b.files) (hrank : dest.rank < b.ranks)
    (hocc : get_piece_at_location b dest = none)
    (hdiag : dest.file ≠ start.file) :
    is_valid_move b p start dest =
        .ok { move_type := .EnPassant, capturing := true } ↔
      (start.rank = ep_required_start_rank p.color ∧
       dest.rank = ep_valid_destination_rank p.color ∧
       dest.file.dist start.file = 1 ∧
       ∃ lm, get_previous_move b = some lm ∧
         lm.piece.piece_type = .Pawn ∧
         lm.start_pos.rank.dist lm.end_pos.rank = 2 ∧
         dest.file = lm.end_pos.file) := by
  have hne : ¬(dest.rank = start.rank ∧ dest.file = start.file) :=
    fun h => hdiag h.2
  have hu := is_valid_move_universal b p start dest hturn hfile hrank hne
    (by rw [hocc]; exact trivial)
  rw [hu, hocc]
  unfold is_valid_move_kind
  rw [hk]
  dsimp only
  constructor
  · intro h
    by_cases hrd : dest.rank.dist start.rank > (if p.has_moved = true then 1 else 2)
    · rw [if_pos hrd] at h; simp at h
    · rw [if_neg hrd] at h
      by_cases hfwd : u8ToI8 dest.rank * pawn_direction p.color ≤
          u8ToI8 start.rank * pawn_direction p.color
      · rw [if_pos hfwd] at h; simp at h
      · rw [if_neg hfwd] at h
        by_cases hep : (can_en_passant b p start dest).isOk = true
        · rw [if_pos hep] at h
          by_cases hsh : dest.file.dist start.file ≠ 1 ∨
              dest.rank.dist start.rank ≠ 1
          · rw [if_pos hsh] at h; simp at h
          · push_neg at hsh
            obtain ⟨hs, lm, hlm, hlmp, hlm2, hd, hlmf⟩ :=
              (can_en_passant_ok_iff b p start dest).1 hep
            exact ⟨hs, hd, hsh.1, lm, hlm, hlmp, hlm2, hlmf⟩
        · rw [if_neg hep] at h
          rw [if_neg (by simp)] at h
          by_cases hsf : start.file ≠ dest.file
          · rw [if_pos hsf] at h; simp at h
          · exact absurd (Ne.symm hdiag) hsf
  · rintro ⟨hs, hd, hf1, lm, hlm, hlmp, hlm2, hlmf⟩
    have hep : (can_en_passant b p start dest).isOk = true :=
      (can_en_passant_ok_iff b p start dest).2
        ⟨hs, lm, hlm, hlmp, hlm2, hd, hlmf⟩
    have hr1 : dest.rank.dist start.rank = 1 := by
      cases hc : p.color with
      | White =>
        rw [hc] at hs hd
        simp only [ep_required_start_rank, ep_valid_destination_rank] at hs hd
        rw [hs, hd]
        decide
      | Black =>
        rw [hc] at hs hd
        simp only [ep_required_start_rank, ep_valid_destination_rank] at hs hd
        rw [hs, hd]
        decide
    have hrd : ¬dest.rank.dist start.rank >
        (if p.has_moved = true then 1 else 2) := by
      rw [hr1]
      cases p.has_moved <;> simp
    have hfwd : ¬(u8ToI8 dest.rank * pawn_direction p.color ≤
        u8ToI8 start.rank * pawn_direction p.color) := by
      cases hc : p.color with
      | White =>
        rw [hc] at hs hd
        simp only [ep_required_start_rank, ep_valid_destination_rank] at hs hd
        rw [hs, hd]
        decide
      | Black =>
        rw [hc] at hs hd
        simp only [ep_required_start_rank, ep_valid_destination_rank] at hs hd
        rw [hs, hd]
        decide
    rw [if_neg hrd, if_neg hfwd, if_pos hep, if_neg (by simp [hf1, hr1])]

/-- Witness for the amended claim C2 at a concrete input: the genuine en
passant capture on epCaptureBoard (black two-step (6,5) to (4,5) just
played, white pawn on (4,4) capturing to (5,5)) satisfies the amended
conditions and is classified EnPassant capturing. -/
theorem C2_witness :
    is_valid_move epCaptureBoard
        { piece_type := .Pawn, color := .White, has_moved := true }
        { rank := 4, file := 4 } { rank := 5, file := 5 } =
      .ok { move_type := .EnPassant, capturing := true } :=
  (C2_amended_en_passant_iff epCaptureBoard
      { piece_type := .Pawn, color := .White, has_moved := true }
      { rank := 4, file := 4 } { rank := 5, file := 5 }
      rfl rfl (by decide) (by decide) rfl (by decide)).2
    ⟨rfl, rfl, by decide,
     { piece := { piece_type := .Pawn, color := .Black, has_moved := false }
       start_pos := { rank := 6, file := 5 }
       end_pos := { rank := 4, file := 5 }
       move_type := .Normal
       capturing := false },
     rfl, rfl, by decide, rfl⟩


/-! ### Claim C5: counterexample -/

/-- Claim C5 counterexample: on castleCaptureBoard the castling attempt
(0,4) to (0,6) lands on a square occupied by a black knight and the
checker returns Castling with capturing = true, not the capturing = false
the claim requires for every destination. -/
theorem C5_counterexample :
    is_valid_move castleCaptureBoard
        { piece_type := .King, color := .White, has_moved := false }
        { rank := 0, file := 4 } { rank := 0, file := 6 } =
      .ok { move_type := .Castling, capturing := true } ∧
    get_piece_at_location castleCaptureBoard { rank := 0, file := 6 } =
      some { piece_type := .Knight, color := .Black, has_moved := false } :=
  ⟨rfl, rfl⟩

/-- Claim C5, amended: for a king move that is a same-rank, 2-file lateral
shift passing the universal checks, the checker rejects with
CannotCastleWithMovedKing when the king has moved; otherwise it looks up
the rook square on the destination rank (file 0 for a shift toward lower
files, file 7 toward higher files): absent gives NoRookToCastleWith, a
moved rook gives CannotCastleWithMovedRook, and otherwise the result is
Castling with the capturing flag passed through from the universal
occupancy check — false on an empty destination but TRUE when an enemy
piece occupies the destination. -/
theorem C5_amended_castling (b : Board) (p : Piece) (start dest : PieceLoc)
    (hk : p.piece_type = .King)
    (hturn : b.current_turn = p.color)
    (hfile : dest.file < b.files) (hrank : dest.rank < b.ranks)
    (hsame : dest.rank = start.rank)
    (hshift : dest.file.dist start.file = 2)
    (hocc : (get_piece_at_location b dest).elim True
      (fun q => q.color ≠ p.color)) :
    (p.has_moved = true →
      is_valid_move b p start dest = .error .CannotCastleWithMovedKing) ∧
    (p.has_moved = false →
      ((get_piece_at_location b (castling_rook_loc start dest) = none →
          is_valid_move b p start dest = .error .NoRookToCastleWith) ∧
       (∀ r, get_piece_at_location b (castling_rook_loc start dest) = some r →
          ((r.has_moved = true →
              is_valid_move b p start dest = .error .CannotCastleWithMovedRook) ∧
           (r.has_moved = false →
              is_valid_move b p start dest =
                .ok { move_type := .Castling,
                      capturing := (get_piece_at_location b dest).isSome }))))) := by
  have hne : ¬(dest.rank = start.rank ∧ dest.file = start.file) := by
    rintro ⟨h1, h2⟩
    rw [h2] at hshift
    simp [Nat.dist_self] at hshift
  have hu := is_valid_move_universal b p start dest hturn hfile hrank hne hocc
  rw [hu]
  unfold is_valid_move_kind
  rw [hk]
  dsimp only
  rw [if_pos ⟨hsame, hshift⟩]
  constructor
  · intro hm
    rw [if_pos hm]
  · intro hm
    rw [if_neg (by simp [hm])]
    constructor
    · intro hr
      rw [hr]
    · intro r hr
      rw [hr]
      dsimp only
      constructor
      · intro hrm
        rw [if_neg (by simp [hrm])]
      · intro hrm
        rw [if_pos (by simp [hrm])]

/-- Witness for the amended claim C5 at a concrete input: the kingside
castling attempt on castleCaptureBoard (enemy knight on the destination)
is classified Castling with the capturing flag equal to the destination
occupancy. -/
theorem C5_witness :
    is_valid_move castleCaptureBoard
        { piece_type := .King, color := .White, has_moved := false }
        { rank := 0, file := 4 } { rank := 0, file := 6 } =
      .ok { move_type := .Castling,
            capturing := (get_piece_at_location castleCaptureBoard
              { rank := 0, file := 6 }).isSome } :=
  (((C5_amended_castling castleCaptureBoard
      { piece_type := .King, color := .White, has_moved := false }
      { rank := 0, file := 4 } { rank := 0, file := 6 }
      rfl rfl (by decide) (by decide) rfl (by decide)
      (by exact (by decide : PieceColor.Black ≠ PieceColor.White))).2 rfl).2
    { piece_type := .Rook, color := .White, has_moved := false } rfl).2 rfl

/-! ### Claim C4 -/

/-- Claim C4: when the legality checker rejects a proposed move, the board
value returned by the move applier is exactly its input board in every
component. -/
theorem C4_rejected_move_leaves_board_unchanged (b : Board) (m : Move)
    (e : MoveError)
    (h : is_valid_move b m.piece m.start_pos m.end_pos = .error e) :
    move_piece b m = some b := by
  unfold move_piece
  rw [h]

/-- A proposed move by Black from the standard start, where it is White to
move. -/
def wrongTurnMove : Move :=
  { piece := { piece_type := .Pawn, color := .Black, has_moved := false }
    start_pos := { rank := 6, file := 0 }
    end_pos := { rank := 5, file := 0 }
    move_type := .Normal
    capturing := false }

/-- Witness for claim C4 at a concrete input: the black pawn move from the
standard start is rejected with WrongColorPiece and the applier returns
the standard board unchanged. -/
theorem C4_witness :
    is_valid_move Board.new wrongTurnMove.piece wrongTurnMove.start_pos
        wrongTurnMove.end_pos = .error .WrongColorPiece ∧
    move_piece Board.new wrongTurnMove = some Board.new :=
  ⟨rfl, C4_rejected_move_leaves_board_unchanged Board.new wrongTurnMove
    .WrongColorPiece rfl⟩

/-! ### Claim C9 -/

/-- Claim C9: the legality checker is deterministic and stateless.  In the
embedding is_valid_move is a pure function of (position, piece, start,
dest) — the source takes the board by immutable reference and touches no
other state — so two calls with identical arguments and the same position
give identical results and leave the position untouched. -/
theorem C9_check_deterministic (b : Board) (p : Piece) (start dest : PieceLoc) :
    is_valid_move b p start dest = is_valid_move b p start dest := rfl

/-! ### Claim C10 -/

/-- Recogniser for the CannotCastleThroughPiece rejection. -/
def isCastleThroughPieceError : Except MoveError MoveResult → Bool
  | .error .CannotCastleThroughPiece => true
  | _ => false

/-- No branch of the per-kind rules produces CannotCastleThroughPiece. -/
lemma kind_no_castle_through (b : Board) (p : Piece) (start dest : PieceLoc)
    (capturing : Bool) :
    isCastleThroughPieceError (is_valid_move_kind b p start dest capturing) =
      false := by
  unfold is_valid_move_kind
  dsimp only
  repeat' split
  all_goals rfl

/-- Claim C10: the legality checker never returns the declared error
variant CannotCastleThroughPiece — no branch of is_valid_move produces it,
so no castling attempt is ever rejected because of a piece between king
and rook. -/
theorem C10_castle_through_piece_unreachable (b : Board) (p : Piece)
    (start dest : PieceLoc) :
    isCastleThroughPieceError (is_valid_move b p start dest) = false := by
  unfold is_valid_move
  repeat' split
  all_goals first | rfl | apply kind_no_castle_through

/-! ### Claim C7 -/

lemma PieceColor.flip_flip (c : PieceColor) : c.flip.flip = c := by
  cases c <;> rfl

/-- One application step: an accepted move flips the turn exactly once and
a rejected move leaves it unchanged. -/
lemma move_piece_turn (b : Board) (m : Move) (b2 : Board)
    (h : move_piece b m = some b2) :
    b2.current_turn =
      if (is_valid_move b m.piece m.start_pos m.end_pos).isOk then
        b.current_turn.flip
      else b.current_turn := by
  unfold move_piece at h
  cases hv : is_valid_move b m.piece m.start_pos m.end_pos with
  | ok r =>
    rw [hv] at h
    dsimp only at h
    cases hmb : handle_moving_piece b m with
    | none => rw [hmb] at h; cases h
    | some nb =>
      rw [hmb] at h
      dsimp only at h
      cases hg : handle_move_piece_to_graveyard b (toCaptureResult r) m with
      | none => rw [hg] at h; cases h
      | some gp =>
        obtain ⟨g, sb⟩ := gp
        rw [hg] at h
        dsimp only at h
        cases h
        simp [Except.isOk, Except.toBool, Board.update]
  | error e =>
    rw [hv] at h
    cases h
    simp [Except.isOk, Except.toBool]

/-- Along any panic-free run, the final turn is the starting turn when the
number of accepted moves is even, and its flip when odd. -/
lemma applyMoves_turn (ms : List Move) : ∀ (b b2 : Board),
    applyMoves b ms = some b2 →
    b2.current_turn =
      if successCount b ms % 2 = 0 then b.current_turn
      else b.current_turn.flip := by
  induction ms with
  | nil =>
    intro b b2 h
    cases h
    simp [successCount]
  | cons m ms ih =>
    intro b b2 h
    unfold applyMoves at h
    cases hm : move_piece b m with
    | none => rw [hm] at h; cases h
    | some b1 =>
      rw [hm] at h
      have ht := move_piece_turn b m b1 hm
      have hrec := ih b1 b2 h
      unfold successCount
      rw [hm]
      cases hok : (is_valid_move b m.piece m.start_pos m.end_pos).isOk with
      | true =>
        rw [if_pos hok] at ht
        simp only [eq_self_iff_true, if_true]
        by_cases hpar : successCount b1 ms % 2 = 0
        · rw [if_pos hpar] at hrec
          rw [hrec, ht, if_neg (by omega)]
        · rw [if_neg hpar] at hrec
          rw [hrec, ht, PieceColor.flip_flip, if_pos (by omega)]
      | false =>
        rw [if_neg (by simp [hok])] at ht
        simp only [Bool.false_eq_true, if_false]
        by_cases hpar : successCount b1 ms % 2 = 0
        · rw [if_pos hpar] at hrec
          rw [hrec, ht, if_pos (by omega)]
        · rw [if_neg hpar] at hrec
          rw [hrec, ht, if_neg (by omega)]

/-- Claim C7: starting from the standard position, after any panic-free
run of proposed moves the current turn is White when the number of
accepted moves is even and Black when it is odd (accepted moves flip the
turn exactly once each, rejected moves leave it unchanged). -/
theorem C7_turn_parity (ms : List Move) (b2 : Board)
    (h : applyMoves Board.new ms = some b2) :
    b2.current_turn =
      (if successCount Board.new ms % 2 = 0 then PieceColor.White
       else PieceColor.Black) := by
  have := applyMoves_turn ms Board.new b2 h
  rw [this]
  by_cases hpar : successCount Board.new ms % 2 = 0
  · rw [if_pos hpar, if_pos hpar]; rfl
  · rw [if_neg hpar, if_neg hpar]; rfl

/-- The opening pawn move (1,4) to (3,4) from the standard start. -/
def e4Move : Move :=
  { piece := Piece.new .Pawn .White
    start_pos := { rank := 1, file := 4 }
    end_pos := { rank := 3, file := 4 }
    move_type := .Normal
    capturing := false }

/-- Witness for claim C7 at a concrete input: applying the accepted
opening move e4 from the standard start yields a position whose turn
matches the parity formula (one accepted move, so Black). -/
theorem C7_witness :
    applyMoves Board.new [e4Move] =
      some ((move_piece Board.new e4Move).getD Board.new) ∧
    ((move_piece Board.new e4Move).getD Board.new).current_turn =
      (if successCount Board.new [e4Move] % 2 = 0 then PieceColor.White
       else PieceColor.Black) :=
  ⟨rfl, C7_turn_parity [e4Move] ((move_piece Board.new e4Move).getD Board.new) rfl⟩

/-! ### Claim C6: counterexample -/

/-- Claim C6 counterexample: from the standard start, the white pawn move
(1,4) to (2,5) is diagonal with no occupant on the destination and no en
passant opportunity; the checker rejects it with PawnMustMoveForward, not
the PawnMustCaptureDiagonal the claim states. -/
theorem C6_counterexample :
    is_valid_move Board.new (Piece.new .Pawn .White)
        { rank := 1, file := 4 } { rank := 2, file := 5 } =
      .error .PawnMustMoveForward ∧
    get_piece_at_location Board.new { rank := 2, file := 5 } = none :=
  ⟨rfl, rfl⟩

/-- Claim C6, amended: a pawn move with dest.file differing from
start.file that passes the universal checks and the rank-distance and
forward-direction checks, with no occupant at dest and no valid en
passant, is rejected with PawnMustMoveForward (not
PawnMustCaptureDiagonal: the capturing branch that produces that error is
never reached when the capturing flag is false). -/
theorem C6_amended_pawn_diag_no_capture (b : Board) (p : Piece)
    (start dest : PieceLoc)
    (hk : p.piece_type = .Pawn)
    (hturn : b.current_turn = p.color)
    (hfile : dest.file < b.files) (hrank : dest.rank < b.ranks)
    (hocc : get_piece_at_location b dest = none)
    (hdiag : dest.file ≠ start.file)
    (hrd : ¬dest.rank.dist start.rank > (if p.has_moved then 1 else 2))
    (hfwd : ¬(u8ToI8 dest.rank * pawn_direction p.color ≤
      u8ToI8 start.rank * pawn_direction p.color))
    (hep : (can_en_passant b p start dest).isOk = false) :
    is_valid_move b p start dest = .error .PawnMustMoveForward := by
  have hne : ¬(dest.rank = start.rank ∧ dest.file = start.file) :=
    fun h => hdiag h.2
  have hu := is_valid_move_universal b p start dest hturn hfile hrank hne
    (by rw [hocc]; exact trivial)
  rw [hu, hocc]
  unfold is_valid_move_kind
  rw [hk]
  dsimp only
  rw [if_neg hrd, if_neg hfwd, if_neg (by simp [hep])]
  rw [if_neg (by simp)]
  rw [if_pos (Ne.symm hdiag)]

/-- Witness for the amended claim C6 at a concrete input: the diagonal
white pawn move (1,4) to (2,5) from the standard start, with an empty
destination and no en passant opportunity, is rejected with
PawnMustMoveForward. -/
theorem C6_witness :
    is_valid_move Board.new (Piece.new .Pawn .White)
        { rank := 1, file := 4 } { rank := 2, file := 5 } =
      .error .PawnMustMoveForward :=
  C6_amended_pawn_diag_no_capture Board.new (Piece.new .Pawn .White)
    { rank := 1, file := 4 } { rank := 2, file := 5 }
    rfl rfl (by decide) (by decide) rfl (by decide) (by decide) (by decide) rfl
